import Mathlib

/-!
Shallow embedding of the Vulkan bootstrap core of `src/main.cpp`
(queue-family discovery, device suitability and selection, swapchain
parameter negotiation, image-view creation), together with theorems
checking the natural-language specification against it.

Machine integers (`uint32_t`) are modelled as `Nat`, with an explicit
`% 2 ^ 32` at the points where the source performs a cast or where an
increment could wrap.
-/

namespace VulkanTutorial

/-- `std::numeric_limits<uint32_t>::max()`. -/
def UINT32_MAX : Nat := 2 ^ 32 - 1

/-- Vulkan enum value `VK_FORMAT_B8G8R8A8_SRGB` (C enums are integers). -/
def VK_FORMAT_B8G8R8A8_SRGB : Nat := 50

/-- Vulkan enum value `VK_COLOR_SPACE_SRGB_NONLINEAR_KHR`. -/
def VK_COLOR_SPACE_SRGB_NONLINEAR_KHR : Nat := 0

/-- Vulkan enum value `VK_PRESENT_MODE_MAILBOX_KHR`. -/
def VK_PRESENT_MODE_MAILBOX_KHR : Nat := 1

/-- Vulkan enum value `VK_PRESENT_MODE_FIFO_KHR`. -/
def VK_PRESENT_MODE_FIFO_KHR : Nat := 2

/-- Vulkan enum value `VK_SHARING_MODE_EXCLUSIVE`. -/
def VK_SHARING_MODE_EXCLUSIVE : Nat := 0

/-- Vulkan enum value `VK_SHARING_MODE_CONCURRENT`. -/
def VK_SHARING_MODE_CONCURRENT : Nat := 1

/-- Bit flag `VK_QUEUE_GRAPHICS_BIT`. -/
def VK_QUEUE_GRAPHICS_BIT : Nat := 1

/-- `VkExtent2D`: a pair of `uint32_t` dimensions. -/
structure VkExtent2D where
  width : Nat
  height : Nat
deriving DecidableEq, Repr

/-- `VkSurfaceFormatKHR`: a (format, color space) pair of enum values. -/
structure VkSurfaceFormatKHR where
  format : Nat
  colorSpace : Nat
deriving DecidableEq, Repr

/-- The fields of `VkSurfaceCapabilitiesKHR` the source reads. -/
structure VkSurfaceCapabilitiesKHR where
  minImageCount : Nat
  maxImageCount : Nat
  currentExtent : VkExtent2D
  minImageExtent : VkExtent2D
  maxImageExtent : VkExtent2D
deriving DecidableEq, Repr

/-- `struct SwapChainSupportDetails` of `src/main.cpp`. -/
structure SwapChainSupportDetails where
  capabilities : VkSurfaceCapabilitiesKHR
  formats : List VkSurfaceFormatKHR
  presentModes : List Nat
deriving DecidableEq, Repr

/-- One queue family as the driver reports it to `findQueueFamilies`:
its `VkQueueFamilyProperties::queueFlags` together with the answer of
`vkGetPhysicalDeviceSurfaceSupportKHR` for its index. -/
structure QueueFamily where
  queueFlags : Nat
  presentSupport : Bool
deriving DecidableEq, Repr

/-- `struct QueueFamilyIndices` of `src/main.cpp`
(`std::optional<uint32_t>` becomes `Option Nat`). -/
structure QueueFamilyIndices where
  graphicsFamily : Option Nat
  presentFamily : Option Nat
deriving DecidableEq, Repr

/-- `QueueFamilyIndices::isComplete`: both optionals hold a value. -/
def QueueFamilyIndices.isComplete (q : QueueFamilyIndices) : Bool :=
  q.graphicsFamily.isSome && q.presentFamily.isSome

/-- The driver-visible state of a candidate `VkPhysicalDevice`: everything
the probe functions of `src/main.cpp` query about it
(`vkGetPhysicalDeviceQueueFamilyProperties` +
`vkGetPhysicalDeviceSurfaceSupportKHR`,
`vkEnumerateDeviceExtensionProperties`, and
`querySwapChainSupport`'s three surface queries). -/
structure PhysicalDevice where
  queueFamilies : List QueueFamily
  availableExtensions : List String
  capabilities : VkSurfaceCapabilitiesKHR
  formats : List VkSurfaceFormatKHR
  presentModes : List Nat
deriving DecidableEq, Repr

/-- `const std::vector<const char *> deviceExtensions =
{VK_KHR_SWAPCHAIN_EXTENSION_NAME}` (line 23 of `src/main.cpp`). -/
def deviceExtensions : List String := ["VK_KHR_swapchain"]

/-- First statement of the loop body of `findQueueFamilies`: record
family `i` as the graphics family when its flags contain
`VK_QUEUE_GRAPHICS_BIT` (overwriting any earlier record). -/
def updateGraphics (indices : QueueFamilyIndices) (i : Nat)
    (queueFamily : QueueFamily) : QueueFamilyIndices :=
  if Nat.land queueFamily.queueFlags VK_QUEUE_GRAPHICS_BIT ≠ 0 then
    { indices with graphicsFamily := some i }
  else indices

/-- Second statement of the loop body of `findQueueFamilies`: record
family `i` as the present family when the surface-support query answers
true for it (overwriting any earlier record). -/
def updatePresent (indices : QueueFamilyIndices) (i : Nat)
    (queueFamily : QueueFamily) : QueueFamilyIndices :=
  if queueFamily.presentSupport then
    { indices with presentFamily := some i }
  else indices

/-- The loop of `findQueueFamilies` (lines 607-641): scan families in
ascending index order, apply the two role updates for each, and break as
soon as both roles are assigned. -/
def findQueueFamiliesLoop : QueueFamilyIndices → Nat → List QueueFamily → QueueFamilyIndices
  | indices, _, [] => indices
  | indices, i, queueFamily :: rest =>
      let indices2 := updatePresent (updateGraphics indices i queueFamily) i queueFamily
      if indices2.isComplete then indices2
      else findQueueFamiliesLoop indices2 (i + 1) rest

/-- `findQueueFamilies` of `src/main.cpp`, as a function of the
queue-family list the driver reports for the device. -/
def findQueueFamilies (queueFamilies : List QueueFamily) : QueueFamilyIndices :=
  findQueueFamiliesLoop ⟨none, none⟩ 0 queueFamilies

/-- `checkDeviceExtensionSupport` (lines 584-604): build the set of
required extension names, erase each driver-reported name from it, and
succeed when the remainder is empty. -/
def checkDeviceExtensionSupport (device : PhysicalDevice) : Bool :=
  (device.availableExtensions.foldl (fun required ext => required.erase ext)
    deviceExtensions).isEmpty

/-- `querySwapChainSupport` (lines 443-476): package the three surface
queries for a device. -/
def querySwapChainSupport (device : PhysicalDevice) : SwapChainSupportDetails :=
  ⟨device.capabilities, device.formats, device.presentModes⟩

/-- `isDeviceSuitable` (lines 564-582). -/
def isDeviceSuitable (device : PhysicalDevice) : Bool :=
  let indices := findQueueFamilies device.queueFamilies
  let extensionsSupported := checkDeviceExtensionSupport device
  let swapChainAdequate :=
    if extensionsSupported then
      let swapChainSupport := querySwapChainSupport device
      !swapChainSupport.formats.isEmpty && !swapChainSupport.presentModes.isEmpty
    else false
  indices.isComplete && extensionsSupported && swapChainAdequate

/-- The device loop of `pickPhysicalDevice` (lines 273-304): keep the
first suitable device. -/
def pickLoop : List PhysicalDevice → Option PhysicalDevice
  | [] => none
  | device :: rest => if isDeviceSuitable device then some device else pickLoop rest

/-- `pickPhysicalDevice` (lines 273-304): throw when the enumeration is
empty, otherwise keep the first suitable device and throw when none is. -/
def pickPhysicalDevice (devices : List PhysicalDevice) : Except String PhysicalDevice :=
  if devices.length = 0 then
    Except.error "failed to find GPUs with Vulkan support!"
  else
    match pickLoop devices with
    | some device => Except.ok device
    | none => Except.error "failed to find a suitable GPU!"

/-- The scan inside `chooseSwapSurfaceFormat` (lines 510-522): first
entry matching B8G8R8A8_SRGB + SRGB_NONLINEAR, if any. -/
def chooseSwapSurfaceFormatScan : List VkSurfaceFormatKHR → Option VkSurfaceFormatKHR
  | [] => none
  | availableFormat :: rest =>
      if availableFormat.format = VK_FORMAT_B8G8R8A8_SRGB ∧
          availableFormat.colorSpace = VK_COLOR_SPACE_SRGB_NONLINEAR_KHR then
        some availableFormat
      else chooseSwapSurfaceFormatScan rest

/-- `chooseSwapSurfaceFormat` (lines 510-522). The fallback
`availableFormats[0]` is out-of-bounds (undefined behaviour) on an empty
list, so the result is an `Option`; on any non-empty list the source
always returns a value. -/
def chooseSwapSurfaceFormat (availableFormats : List VkSurfaceFormatKHR) :
    Option VkSurfaceFormatKHR :=
  match chooseSwapSurfaceFormatScan availableFormats with
  | some f => some f
  | none => availableFormats.head?

/-- `chooseSwapPresentMode` (lines 525-537): first MAILBOX entry, else
FIFO. -/
def chooseSwapPresentMode : List Nat → Nat
  | [] => VK_PRESENT_MODE_FIFO_KHR
  | availablePresentMode :: rest =>
      if availablePresentMode = VK_PRESENT_MODE_MAILBOX_KHR then availablePresentMode
      else chooseSwapPresentMode rest

/-- `std::clamp(v, lo, hi)`. -/
def stdClamp (v lo hi : Nat) : Nat :=
  if v < lo then lo else if hi < v then hi else v

/-- `chooseSwapExtent` (lines 540-561). `fbWidth`/`fbHeight` are the
framebuffer dimensions `glfwGetFramebufferSize` reports; the
`static_cast<uint32_t>` on them is the `% 2 ^ 32`. -/
def chooseSwapExtent (fbWidth fbHeight : Nat)
    (capabilities : VkSurfaceCapabilitiesKHR) : VkExtent2D :=
  if capabilities.currentExtent.width ≠ UINT32_MAX then
    capabilities.currentExtent
  else
    let actualWidth := stdClamp (fbWidth % 2 ^ 32)
      capabilities.minImageExtent.width capabilities.maxImageExtent.width
    let actualHeight := stdClamp (fbHeight % 2 ^ 32)
      capabilities.minImageExtent.height capabilities.maxImageExtent.height
    ⟨actualWidth, actualHeight⟩

/-- The image-count computation of `createSwapChain` (lines 381-385).
`minImageCount + 1` is a `uint32_t` addition, hence the `% 2 ^ 32`. -/
def swapImageCount (capabilities : VkSurfaceCapabilitiesKHR) : Nat :=
  let imageCount := (capabilities.minImageCount + 1) % 2 ^ 32
  if capabilities.maxImageCount > 0 ∧ imageCount > capabilities.maxImageCount then
    capabilities.maxImageCount
  else imageCount

/-- The sharing-mode fields of `VkSwapchainCreateInfoKHR` that the
branch at lines 404-415 fills in (the zero-initialised defaults stand
for the fields the exclusive branch leaves untouched). -/
structure SwapchainSharingInfo where
  imageSharingMode : Nat
  queueFamilyIndexCount : Nat
  pQueueFamilyIndices : List Nat
deriving DecidableEq, Repr

/-- The sharing-mode selection of `createSwapChain` (lines 404-415).
`Option.getD 0` stands for `std::optional::value()`, exact whenever the
indices are complete (the only state in which `createSwapChain` runs). -/
def swapchainSharingInfo (indices : QueueFamilyIndices) : SwapchainSharingInfo :=
  let queueFamilyIndices := [indices.graphicsFamily.getD 0, indices.presentFamily.getD 0]
  if indices.graphicsFamily ≠ indices.presentFamily then
    ⟨VK_SHARING_MODE_CONCURRENT, 2, queueFamilyIndices⟩
  else
    ⟨VK_SHARING_MODE_EXCLUSIVE, 0, []⟩

/-- Driver calls `createImageViews` can make on the device, recorded as
a trace. -/
inductive VkAction where
  | createImageView (i : Nat)
  | destroyImageView (i : Nat)
deriving DecidableEq, Repr

/-- The loop of `createImageViews` (lines 477-507), iterating over the
swapchain images by index. `driver i = true` means `vkCreateImageView`
returns `VK_SUCCESS` for image `i`. The result is the trace of driver
calls issued together with the thrown error, if any: on the first
failure the loop throws at once, issuing no further calls (in
particular no `destroyImageView`). -/
def createImageViewsGo (driver : Nat → Bool) (i : Nat) :
    Nat → List VkAction × Option String
  | 0 => ([], none)
  | remaining + 1 =>
      if driver i then
        let result := createImageViewsGo driver (i + 1) remaining
        (VkAction.createImageView i :: result.1, result.2)
      else ([], some "failed to create image views!")

/-- `createImageViews` (lines 477-507) on a swapchain of `n` images. -/
def createImageViews (driver : Nat → Bool) (n : Nat) :
    List VkAction × Option String :=
  createImageViewsGo driver 0 n


/-- The surface format the scan in `chooseSwapSurfaceFormat` looks for. -/
def preferredSurfaceFormat : VkSurfaceFormatKHR :=
  ⟨VK_FORMAT_B8G8R8A8_SRGB, VK_COLOR_SPACE_SRGB_NONLINEAR_KHR⟩

theorem chooseSwapSurfaceFormatScan_of_mem (l : List VkSurfaceFormatKHR)
    (h : preferredSurfaceFormat ∈ l) :
    chooseSwapSurfaceFormatScan l = some preferredSurfaceFormat := by
  induction l with
  | nil => cases h
  | cons a t ih =>
      rw [chooseSwapSurfaceFormatScan]
      by_cases hc : a.format = VK_FORMAT_B8G8R8A8_SRGB ∧
          a.colorSpace = VK_COLOR_SPACE_SRGB_NONLINEAR_KHR
      · rw [if_pos hc]
        obtain ⟨af, ac⟩ := a
        obtain ⟨hf, hs⟩ := hc
        subst hf
        subst hs
        rfl
      · rw [if_neg hc]
        rcases List.mem_cons.mp h with heq | hmem
        · exact absurd (heq ▸ ⟨rfl, rfl⟩) hc
        · exact ih hmem

theorem chooseSwapSurfaceFormatScan_of_not_mem (l : List VkSurfaceFormatKHR)
    (h : preferredSurfaceFormat ∉ l) :
    chooseSwapSurfaceFormatScan l = none := by
  induction l with
  | nil => rfl
  | cons a t ih =>
      rw [chooseSwapSurfaceFormatScan]
      have ha : ¬(a.format = VK_FORMAT_B8G8R8A8_SRGB ∧
          a.colorSpace = VK_COLOR_SPACE_SRGB_NONLINEAR_KHR) := by
        intro hc
        apply h
        obtain ⟨af, ac⟩ := a
        exact List.mem_cons.mpr (Or.inl (by simp_all [preferredSurfaceFormat]))
      rw [if_neg ha]
      exact ih (fun hm => h (List.mem_cons_of_mem a hm))

/-- C4: on a non-empty format list, `chooseSwapSurfaceFormat` returns the
(8-bit BGRA sRGB, non-linear sRGB) entry whenever the list contains it,
regardless of its position, and the first entry of the list otherwise. -/
theorem chooseSwapSurfaceFormat_spec (availableFormats : List VkSurfaceFormatKHR)
    (hne : availableFormats ≠ []) :
    (preferredSurfaceFormat ∈ availableFormats →
      chooseSwapSurfaceFormat availableFormats = some preferredSurfaceFormat) ∧
    (preferredSurfaceFormat ∉ availableFormats →
      chooseSwapSurfaceFormat availableFormats = some (availableFormats.head hne)) := by
  constructor
  · intro hmem
    unfold chooseSwapSurfaceFormat
    rw [chooseSwapSurfaceFormatScan_of_mem availableFormats hmem]
  · intro hnm
    unfold chooseSwapSurfaceFormat
    rw [chooseSwapSurfaceFormatScan_of_not_mem availableFormats hnm]
    exact (List.head?_eq_head hne).symm ▸ rfl

/-- Witness for C4: a list holding the preferred format in second
position yields the preferred format; a list without it yields its
first entry. -/
theorem chooseSwapSurfaceFormat_spec_witness :
    chooseSwapSurfaceFormat [⟨44, 0⟩, preferredSurfaceFormat, ⟨97, 3⟩] =
      some preferredSurfaceFormat ∧
    chooseSwapSurfaceFormat [⟨44, 0⟩, ⟨97, 3⟩] = some ⟨44, 0⟩ :=
  ⟨(chooseSwapSurfaceFormat_spec [⟨44, 0⟩, preferredSurfaceFormat, ⟨97, 3⟩]
      (by decide)).1 (by decide),
   (chooseSwapSurfaceFormat_spec [⟨44, 0⟩, ⟨97, 3⟩] (by decide)).2 (by decide)⟩

/-- C5: `chooseSwapPresentMode` returns MAILBOX whenever the list
contains it and FIFO otherwise. -/
theorem chooseSwapPresentMode_spec (availablePresentModes : List Nat) :
    (VK_PRESENT_MODE_MAILBOX_KHR ∈ availablePresentModes →
      chooseSwapPresentMode availablePresentModes = VK_PRESENT_MODE_MAILBOX_KHR) ∧
    (VK_PRESENT_MODE_MAILBOX_KHR ∉ availablePresentModes →
      chooseSwapPresentMode availablePresentModes = VK_PRESENT_MODE_FIFO_KHR) := by
  induction availablePresentModes with
  | nil => exact ⟨fun h => absurd h (List.not_mem_nil _), fun _ => rfl⟩
  | cons a t ih =>
      constructor
      · intro hmem
        rw [chooseSwapPresentMode]
        by_cases ha : a = VK_PRESENT_MODE_MAILBOX_KHR
        · rw [if_pos ha]; exact ha
        · rw [if_neg ha]
          rcases List.mem_cons.mp hmem with heq | hm
          · exact absurd heq.symm ha
          · exact ih.1 hm
      · intro hnm
        rw [chooseSwapPresentMode]
        have ha : ¬a = VK_PRESENT_MODE_MAILBOX_KHR := fun h =>
          hnm (h ▸ List.mem_cons_self a t)
        rw [if_neg ha]
        exact ih.2 (fun hm => hnm (List.mem_cons_of_mem a hm))

/-- Witness for C5: a list with MAILBOX yields MAILBOX; a FIFO-only list
yields FIFO. -/
theorem chooseSwapPresentMode_spec_witness :
    chooseSwapPresentMode [VK_PRESENT_MODE_FIFO_KHR, VK_PRESENT_MODE_MAILBOX_KHR] =
      VK_PRESENT_MODE_MAILBOX_KHR ∧
    chooseSwapPresentMode [VK_PRESENT_MODE_FIFO_KHR] = VK_PRESENT_MODE_FIFO_KHR :=
  ⟨(chooseSwapPresentMode_spec [VK_PRESENT_MODE_FIFO_KHR, VK_PRESENT_MODE_MAILBOX_KHR]).1
      (by decide),
   (chooseSwapPresentMode_spec [VK_PRESENT_MODE_FIFO_KHR]).2 (by decide)⟩

/-- C6: with the sentinel current extent the result is the framebuffer
size clamped per-axis into [minImageExtent, maxImageExtent]; with a
non-sentinel current extent (the sentinel being signalled by the width
component) the result is `currentExtent` verbatim. -/
theorem chooseSwapExtent_spec (fbWidth fbHeight : Nat)
    (capabilities : VkSurfaceCapabilitiesKHR) :
    (capabilities.currentExtent = ⟨UINT32_MAX, UINT32_MAX⟩ →
      chooseSwapExtent fbWidth fbHeight capabilities =
        ⟨stdClamp (fbWidth % 2 ^ 32) capabilities.minImageExtent.width
            capabilities.maxImageExtent.width,
          stdClamp (fbHeight % 2 ^ 32) capabilities.minImageExtent.height
            capabilities.maxImageExtent.height⟩) ∧
    (capabilities.currentExtent.width ≠ UINT32_MAX →
      chooseSwapExtent fbWidth fbHeight capabilities = capabilities.currentExtent) := by
  constructor
  · intro hsent
    unfold chooseSwapExtent
    rw [if_neg (by rw [hsent]; simp)]
  · intro hw
    unfold chooseSwapExtent
    rw [if_pos hw]

/-- Witness for C6: sentinel current extent, `minImageExtent = (64,64)`,
`maxImageExtent = (4096,4096)`, framebuffer `(10000, 50)` gives
`(4096, 64)`. -/
theorem chooseSwapExtent_spec_witness :
    chooseSwapExtent 10000 50 ⟨0, 0, ⟨UINT32_MAX, UINT32_MAX⟩, ⟨64, 64⟩, ⟨4096, 4096⟩⟩ =
      ⟨4096, 64⟩ :=
  ((chooseSwapExtent_spec 10000 50
      ⟨0, 0, ⟨UINT32_MAX, UINT32_MAX⟩, ⟨64, 64⟩, ⟨4096, 4096⟩⟩).1 rfl).trans (by decide)

/-- C10: the sentinel test of `chooseSwapExtent` inspects only the width
component: whenever `currentExtent.width` differs from the 32-bit
maximum the current extent is returned verbatim (its height may even
equal the sentinel maximum), and the clamped framebuffer branch is taken
exactly when `currentExtent.width` equals the maximum. -/
theorem chooseSwapExtent_sentinel_width_only (fbWidth fbHeight : Nat)
    (capabilities : VkSurfaceCapabilitiesKHR) :
    (capabilities.currentExtent.width ≠ UINT32_MAX →
      chooseSwapExtent fbWidth fbHeight capabilities = capabilities.currentExtent) ∧
    (capabilities.currentExtent.width = UINT32_MAX →
      chooseSwapExtent fbWidth fbHeight capabilities =
        ⟨stdClamp (fbWidth % 2 ^ 32) capabilities.minImageExtent.width
            capabilities.maxImageExtent.width,
          stdClamp (fbHeight % 2 ^ 32) capabilities.minImageExtent.height
            capabilities.maxImageExtent.height⟩) := by
  constructor
  · intro hw
    unfold chooseSwapExtent
    rw [if_pos hw]
  · intro hw
    unfold chooseSwapExtent
    rw [if_neg (by simp [hw])]

/-- Witness for C10: with `currentExtent = (5, UINT32_MAX)` — height at
the sentinel maximum but width not — the current extent is returned
verbatim, not the clamped framebuffer size. -/
theorem chooseSwapExtent_sentinel_width_only_witness :
    chooseSwapExtent 10000 50 ⟨0, 0, ⟨5, UINT32_MAX⟩, ⟨64, 64⟩, ⟨4096, 4096⟩⟩ =
      ⟨5, UINT32_MAX⟩ :=
  (chooseSwapExtent_sentinel_width_only 10000 50
      ⟨0, 0, ⟨5, UINT32_MAX⟩, ⟨64, 64⟩, ⟨4096, 4096⟩⟩).1 (by decide)

/-- C7: the requested swapchain image count is `minImageCount + 1`,
clamped down to `maxImageCount` when that cap is nonzero, and unclamped
when the cap is zero (unbounded). The hypothesis rules out 32-bit wrap
of `minImageCount + 1`. -/
theorem swapImageCount_spec (capabilities : VkSurfaceCapabilitiesKHR)
    (h : capabilities.minImageCount + 1 < 2 ^ 32) :
    (capabilities.maxImageCount = 0 →
      swapImageCount capabilities = capabilities.minImageCount + 1) ∧
    (0 < capabilities.maxImageCount →
      swapImageCount capabilities =
        min (capabilities.minImageCount + 1) capabilities.maxImageCount) := by
  unfold swapImageCount
  rw [Nat.mod_eq_of_lt h]
  constructor
  · intro h0
    rw [if_neg (by omega)]
  · intro hpos
    by_cases hgt : capabilities.minImageCount + 1 > capabilities.maxImageCount
    · rw [if_pos ⟨hpos, hgt⟩]
      omega
    · rw [if_neg (by omega)]
      omega

/-- Witness for C7: `minImageCount = 2, maxImageCount = 2` yields `2`;
`minImageCount = 2, maxImageCount = 0` yields `3`. -/
theorem swapImageCount_spec_witness :
    swapImageCount ⟨2, 2, ⟨0, 0⟩, ⟨0, 0⟩, ⟨0, 0⟩⟩ = 2 ∧
    swapImageCount ⟨2, 0, ⟨0, 0⟩, ⟨0, 0⟩, ⟨0, 0⟩⟩ = 3 :=
  ⟨((swapImageCount_spec ⟨2, 2, ⟨0, 0⟩, ⟨0, 0⟩, ⟨0, 0⟩⟩ (by decide)).2
      (by decide)).trans (by decide),
    (swapImageCount_spec ⟨2, 0, ⟨0, 0⟩, ⟨0, 0⟩, ⟨0, 0⟩⟩ (by decide)).1 rfl⟩

/-- C8: for complete queue-family indices, differing graphics and
present families yield concurrent sharing listing exactly the two
indices; coinciding families yield exclusive sharing. -/
theorem swapchainSharingInfo_spec (g p : Nat) :
    (g ≠ p → swapchainSharingInfo ⟨some g, some p⟩ =
      ⟨VK_SHARING_MODE_CONCURRENT, 2, [g, p]⟩) ∧
    (g = p → swapchainSharingInfo ⟨some g, some p⟩ =
      ⟨VK_SHARING_MODE_EXCLUSIVE, 0, []⟩) := by
  constructor
  · intro hne
    unfold swapchainSharingInfo
    rw [if_pos (by simpa using hne)]
    rfl
  · intro heq
    unfold swapchainSharingInfo
    rw [if_neg (by simp [heq])]

/-- Witness for C8: families `(0, 0)` give exclusive sharing; families
`(0, 1)` give concurrent sharing over `[0, 1]`. -/
theorem swapchainSharingInfo_spec_witness :
    swapchainSharingInfo ⟨some 0, some 0⟩ = ⟨VK_SHARING_MODE_EXCLUSIVE, 0, []⟩ ∧
    swapchainSharingInfo ⟨some 0, some 1⟩ = ⟨VK_SHARING_MODE_CONCURRENT, 2, [0, 1]⟩ :=
  ⟨(swapchainSharingInfo_spec 0 0).2 rfl, (swapchainSharingInfo_spec 0 1).1 (by decide)⟩

theorem foldl_erase_nil (avail : List String) :
    avail.foldl (fun required ext => required.erase ext) ([] : List String) = [] := by
  induction avail with
  | nil => rfl
  | cons a t ih =>
      rw [List.foldl_cons]
      exact ih

theorem foldl_erase_singleton (s : String) (avail : List String) :
    ((avail.foldl (fun required ext => required.erase ext) [s]).isEmpty = true) ↔
      s ∈ avail := by
  induction avail with
  | nil => simp
  | cons a t ih =>
      rw [List.foldl_cons]
      by_cases ha : s = a
      · have he : [s].erase a = [] := by simp [ha]
        rw [he, foldl_erase_nil]
        simp [ha]
      · have he : [s].erase a = [s] := by simp [List.erase_cons, ha]
        rw [he, ih]
        simp [ha]

theorem checkDeviceExtensionSupport_iff (device : PhysicalDevice) :
    checkDeviceExtensionSupport device = true ↔
      ∀ req ∈ deviceExtensions, req ∈ device.availableExtensions := by
  unfold checkDeviceExtensionSupport deviceExtensions
  rw [foldl_erase_singleton]
  simp

/-- C2: a device with incomplete `QueueFamilyIndices` is never suitable,
whatever its extension, format and present-mode support; and a device is
suitable exactly when its indices are complete, every required extension
appears in the device's reported extension list, and both the
surface-format and the present-mode lists are non-empty. -/
theorem isDeviceSuitable_spec (device : PhysicalDevice) :
    (¬(findQueueFamilies device.queueFamilies).isComplete = true →
      isDeviceSuitable device = false) ∧
    (isDeviceSuitable device = true ↔
      (findQueueFamilies device.queueFamilies).isComplete = true ∧
      (∀ req ∈ deviceExtensions, req ∈ device.availableExtensions) ∧
      device.formats ≠ [] ∧ device.presentModes ≠ []) := by
  have hext := checkDeviceExtensionSupport_iff device
  constructor
  · intro hnc
    rw [Bool.not_eq_true] at hnc
    simp [isDeviceSuitable, hnc]
  · by_cases hE : checkDeviceExtensionSupport device = true
    · have hforall := hext.mp hE
      simp [isDeviceSuitable, querySwapChainSupport, hE, hforall,
        List.isEmpty_iff, and_assoc]
      intro _ _ _
      exact hforall
    · have hB : checkDeviceExtensionSupport device = false := by
        rw [← Bool.not_eq_true]
        exact hE
      constructor
      · intro h
        simp [isDeviceSuitable, hB] at h
      · rintro ⟨-, hforall, -, -⟩
        exact absurd (hext.mpr hforall) hE

theorem pickLoop_eq_none_iff (devices : List PhysicalDevice) :
    pickLoop devices = none ↔ ∀ d ∈ devices, isDeviceSuitable d = false := by
  induction devices with
  | nil => simp [pickLoop]
  | cons d rest ih =>
      rw [pickLoop]
      by_cases hd : isDeviceSuitable d = true
      · simp [hd]
      · have hd' : isDeviceSuitable d = false := by
          rw [← Bool.not_eq_true]; exact hd
        simp [hd', ih]

theorem pickLoop_first (devices : List PhysicalDevice) :
    ∀ i : Fin devices.length,
      (∀ j : Fin devices.length, j.val < i.val → isDeviceSuitable (devices.get j) = false) →
      isDeviceSuitable (devices.get i) = true →
      pickLoop devices = some (devices.get i) := by
  induction devices with
  | nil => exact fun i => absurd i.isLt (by simp)
  | cons d rest ih =>
      intro i hprev hi
      rw [pickLoop]
      match i with
      | ⟨0, h0⟩ =>
          have hd : isDeviceSuitable d = true := hi
          rw [if_pos hd]
          rfl
      | ⟨k + 1, hk⟩ =>
          have hd : isDeviceSuitable d = false :=
            hprev ⟨0, Nat.succ_pos _⟩ (Nat.succ_pos k)
          rw [if_neg (by simp [hd])]
          exact ih ⟨k, Nat.lt_of_succ_lt_succ hk⟩
            (fun j hj => hprev ⟨j.val + 1, Nat.succ_lt_succ j.isLt⟩
              (Nat.succ_lt_succ hj)) hi

/-- C3: device selection scans the enumerated devices in order and
returns the first one passing the full suitability predicate; it fails
(throws, aborting the bootstrap) when the enumeration is empty or when
no device passes. -/
theorem pickPhysicalDevice_spec (devices : List PhysicalDevice) :
    ((devices = [] ∨ ∀ d ∈ devices, isDeviceSuitable d = false) →
      ∃ msg, pickPhysicalDevice devices = Except.error msg) ∧
    (∀ i : Fin devices.length,
      (∀ j : Fin devices.length, j.val < i.val → isDeviceSuitable (devices.get j) = false) →
      isDeviceSuitable (devices.get i) = true →
      pickPhysicalDevice devices = Except.ok (devices.get i)) := by
  constructor
  · rintro (rfl | hall)
    · exact ⟨"failed to find GPUs with Vulkan support!", rfl⟩
    · unfold pickPhysicalDevice
      by_cases hlen : devices.length = 0
      · rw [if_pos hlen]
        exact ⟨_, rfl⟩
      · rw [if_neg hlen, (pickLoop_eq_none_iff devices).mpr hall]
        exact ⟨_, rfl⟩
  · intro i hprev hi
    unfold pickPhysicalDevice
    rw [if_neg (by have := i.isLt; omega), pickLoop_first devices i hprev hi]

/-- Witness for C2: a device whose single queue family lacks present
support is unsuitable despite full extension/format/mode support; the
same device with present support is suitable. -/
theorem isDeviceSuitable_spec_witness :
    isDeviceSuitable ⟨[⟨1, false⟩], ["VK_KHR_swapchain"],
      ⟨0, 0, ⟨0, 0⟩, ⟨0, 0⟩, ⟨0, 0⟩⟩, [⟨44, 0⟩], [2]⟩ = false ∧
    isDeviceSuitable ⟨[⟨1, true⟩], ["VK_KHR_swapchain"],
      ⟨0, 0, ⟨0, 0⟩, ⟨0, 0⟩, ⟨0, 0⟩⟩, [⟨44, 0⟩], [2]⟩ = true :=
  ⟨(isDeviceSuitable_spec _).1 (by decide),
    (isDeviceSuitable_spec _).2.mpr (by decide)⟩

/-- Witness for C3: with two enumerated devices, the first lacking a
present-capable family and the second fully qualifying, selection
returns the second; and an empty enumeration fails. -/
theorem pickPhysicalDevice_spec_witness :
    pickPhysicalDevice
      [⟨[⟨1, false⟩], ["VK_KHR_swapchain"], ⟨0, 0, ⟨0, 0⟩, ⟨0, 0⟩, ⟨0, 0⟩⟩, [⟨44, 0⟩], [2]⟩,
        ⟨[⟨1, true⟩], ["VK_KHR_swapchain"], ⟨0, 0, ⟨0, 0⟩, ⟨0, 0⟩, ⟨0, 0⟩⟩, [⟨44, 0⟩], [2]⟩] =
      Except.ok ⟨[⟨1, true⟩], ["VK_KHR_swapchain"],
        ⟨0, 0, ⟨0, 0⟩, ⟨0, 0⟩, ⟨0, 0⟩⟩, [⟨44, 0⟩], [2]⟩ ∧
    ∃ msg, pickPhysicalDevice [] = Except.error msg :=
  ⟨(pickPhysicalDevice_spec
      [⟨[⟨1, false⟩], ["VK_KHR_swapchain"], ⟨0, 0, ⟨0, 0⟩, ⟨0, 0⟩, ⟨0, 0⟩⟩, [⟨44, 0⟩], [2]⟩,
        ⟨[⟨1, true⟩], ["VK_KHR_swapchain"], ⟨0, 0, ⟨0, 0⟩, ⟨0, 0⟩, ⟨0, 0⟩⟩, [⟨44, 0⟩], [2]⟩]).2
      ⟨1, by decide⟩ (by decide) (by decide),
    (pickPhysicalDevice_spec []).1 (Or.inl rfl)⟩

theorem createImageViewsGo_fail (driver : Nat → Bool) :
    ∀ (k i0 remaining : Nat), k < remaining →
      (∀ j, j < k → driver (i0 + j) = true) → driver (i0 + k) = false →
      createImageViewsGo driver i0 remaining =
        ((List.range k).map (fun j => VkAction.createImageView (i0 + j)),
          some "failed to create image views!") := by
  intro k
  induction k with
  | zero =>
      intro i0 remaining hk hok hfail
      match remaining, hk with
      | r + 1, _ =>
          rw [createImageViewsGo]
          rw [if_neg (by simp only [Nat.add_zero] at hfail; simp [hfail])]
          simp
  | succ k ih =>
      intro i0 remaining hk hok hfail
      match remaining, hk with
      | r + 1, hk =>
          rw [createImageViewsGo]
          have h0 : driver i0 = true := by
            have := hok 0 (Nat.succ_pos k)
            simpa using this
          rw [if_pos h0]
          have hrec := ih (i0 + 1) r (Nat.lt_of_succ_lt_succ hk)
            (fun j hj => by
              have := hok (j + 1) (Nat.succ_lt_succ hj)
              have harith : i0 + (j + 1) = i0 + 1 + j := by omega
              rwa [harith] at this)
            (by
              have harith : i0 + (k + 1) = i0 + 1 + k := by omega
              rwa [harith] at hfail)
          rw [hrec]
          refine Prod.ext ?_ rfl
          simp only [List.range_succ_eq_map, List.map_cons, List.map_map, Nat.add_zero]
          congr 1
          apply List.map_congr_left
          intro j hj
          simp [Function.comp]
          omega

/-- C9: when the driver accepts the image views for images `0 .. i-1`
and rejects the one for image `i < n`, `createImageViews` aborts at once
with the image-view failure error, having issued exactly the create
calls for images `0 .. i-1`; the views created by those calls are left
created — no destroy call appears in the trace. -/
theorem createImageViews_fail_spec (driver : Nat → Bool) (n i : Nat)
    (hin : i < n) (hok : ∀ j, j < i → driver j = true) (hfail : driver i = false) :
    createImageViews driver n =
      ((List.range i).map VkAction.createImageView,
        some "failed to create image views!") ∧
    ∀ j, VkAction.destroyImageView j ∉ (createImageViews driver n).1 := by
  have h := createImageViewsGo_fail driver i 0 n hin
    (fun j hj => by simpa using hok j hj) (by simpa using hfail)
  have h' : createImageViews driver n =
      ((List.range i).map VkAction.createImageView,
        some "failed to create image views!") := by
    rw [createImageViews, h]
    refine Prod.ext ?_ rfl
    simp
  refine ⟨h', ?_⟩
  intro j hj
  rw [h'] at hj
  simp at hj

/-- Witness for C9: five images, driver failing first at index 2 — the
trace is exactly the two creates for images 0 and 1 plus the thrown
error, with no destroy of view 0. -/
theorem createImageViews_fail_spec_witness :
    createImageViews (fun j => decide (j < 2)) 5 =
      ([VkAction.createImageView 0, VkAction.createImageView 1],
        some "failed to create image views!") ∧
    VkAction.destroyImageView 0 ∉ (createImageViews (fun j => decide (j < 2)) 5).1 :=
  ⟨((createImageViews_fail_spec (fun j => decide (j < 2)) 5 2 (by decide)
      (fun j hj => decide_eq_true hj) (by decide)).1).trans rfl,
    (createImageViews_fail_spec (fun j => decide (j < 2)) 5 2 (by decide)
      (fun j hj => decide_eq_true hj) (by decide)).2 0⟩

theorem findQueueFamiliesLoop_cons (indices : QueueFamilyIndices) (i : Nat)
    (qf : QueueFamily) (rest : List QueueFamily) :
    findQueueFamiliesLoop indices i (qf :: rest) =
      if (updatePresent (updateGraphics indices i qf) i qf).isComplete then
        updatePresent (updateGraphics indices i qf) i qf
      else findQueueFamiliesLoop (updatePresent (updateGraphics indices i qf) i qf)
        (i + 1) rest := rfl

theorem updateStep_graphics (indices : QueueFamilyIndices) (i : Nat) (qf : QueueFamily) :
    (updatePresent (updateGraphics indices i qf) i qf).graphicsFamily =
      if Nat.land qf.queueFlags VK_QUEUE_GRAPHICS_BIT ≠ 0 then some i
      else indices.graphicsFamily := by
  unfold updatePresent updateGraphics
  split <;> split <;> rfl

theorem updateStep_present (indices : QueueFamilyIndices) (i : Nat) (qf : QueueFamily) :
    (updatePresent (updateGraphics indices i qf) i qf).presentFamily =
      if qf.presentSupport then some i else indices.presentFamily := by
  unfold updatePresent updateGraphics
  split <;> split <;> rfl

theorem findQueueFamiliesLoop_sound (Pg Pp : Nat → Prop) :
    ∀ (rest : List QueueFamily) (indices : QueueFamilyIndices) (i : Nat),
      (∀ g, indices.graphicsFamily = some g → Pg g) →
      (∀ p, indices.presentFamily = some p → Pp p) →
      (∀ j (hj : j < rest.length),
        Nat.land (rest.get ⟨j, hj⟩).queueFlags VK_QUEUE_GRAPHICS_BIT ≠ 0 → Pg (i + j)) →
      (∀ j (hj : j < rest.length), (rest.get ⟨j, hj⟩).presentSupport = true → Pp (i + j)) →
      (∀ g, (findQueueFamiliesLoop indices i rest).graphicsFamily = some g → Pg g) ∧
      (∀ p, (findQueueFamiliesLoop indices i rest).presentFamily = some p → Pp p) := by
  intro rest
  induction rest with
  | nil =>
      intro indices i hg hp _ _
      exact ⟨hg, hp⟩
  | cons qf rest ih =>
      intro indices i hg hp hrg hrp
      have hg2 : ∀ g,
          (updatePresent (updateGraphics indices i qf) i qf).graphicsFamily = some g →
          Pg g := by
        intro g hgf
        rw [updateStep_graphics] at hgf
        by_cases hb : Nat.land qf.queueFlags VK_QUEUE_GRAPHICS_BIT ≠ 0
        · rw [if_pos hb] at hgf
          have hig := Option.some.inj hgf
          subst hig
          have := hrg 0 (Nat.succ_pos rest.length) hb
          simpa using this
        · rw [if_neg hb] at hgf
          exact hg g hgf
      have hp2 : ∀ p,
          (updatePresent (updateGraphics indices i qf) i qf).presentFamily = some p →
          Pp p := by
        intro p hpf
        rw [updateStep_present] at hpf
        by_cases hb : qf.presentSupport = true
        · rw [if_pos hb] at hpf
          have hip := Option.some.inj hpf
          subst hip
          have := hrp 0 (Nat.succ_pos rest.length) hb
          simpa using this
        · rw [if_neg (by simpa using hb)] at hpf
          exact hp p hpf
      rw [findQueueFamiliesLoop_cons]
      by_cases hc : (updatePresent (updateGraphics indices i qf) i qf).isComplete = true
      · rw [if_pos hc]
        exact ⟨hg2, hp2⟩
      · rw [if_neg hc]
        refine ih _ (i + 1) hg2 hp2 ?_ ?_
        · intro j hj hb
          have := hrg (j + 1) (Nat.succ_lt_succ hj) hb
          have harith : i + (j + 1) = i + 1 + j := by omega
          rwa [harith] at this
        · intro j hj hb
          have := hrp (j + 1) (Nat.succ_lt_succ hj) hb
          have harith : i + (j + 1) = i + 1 + j := by omega
          rwa [harith] at this

theorem findQueueFamiliesLoop_completes :
    ∀ (rest : List QueueFamily) (indices : QueueFamilyIndices) (i : Nat),
      ((∃ qf ∈ rest, Nat.land qf.queueFlags VK_QUEUE_GRAPHICS_BIT ≠ 0) ∨
        indices.graphicsFamily.isSome = true) →
      ((∃ qf ∈ rest, qf.presentSupport = true) ∨
        indices.presentFamily.isSome = true) →
      (findQueueFamiliesLoop indices i rest).isComplete = true := by
  intro rest
  induction rest with
  | nil =>
      intro indices i hgx hpx
      have hg : indices.graphicsFamily.isSome = true := by
        rcases hgx with ⟨qf, hqf, -⟩ | h
        · exact absurd hqf (List.not_mem_nil qf)
        · exact h
      have hp : indices.presentFamily.isSome = true := by
        rcases hpx with ⟨qf, hqf, -⟩ | h
        · exact absurd hqf (List.not_mem_nil qf)
        · exact h
      simp [findQueueFamiliesLoop, QueueFamilyIndices.isComplete, hg, hp]
  | cons qf rest ih =>
      intro indices i hgx hpx
      have hg2 : (∃ q ∈ rest, Nat.land q.queueFlags VK_QUEUE_GRAPHICS_BIT ≠ 0) ∨
          (updatePresent (updateGraphics indices i qf) i qf).graphicsFamily.isSome = true := by
        rw [updateStep_graphics]
        rcases hgx with ⟨q, hq, hql⟩ | h
        · rcases List.mem_cons.mp hq with rfl | hq'
          · right
            rw [if_pos hql]
            rfl
          · left
            exact ⟨q, hq', hql⟩
        · by_cases hb : Nat.land qf.queueFlags VK_QUEUE_GRAPHICS_BIT ≠ 0
          · right
            rw [if_pos hb]
            rfl
          · right
            rw [if_neg hb]
            exact h
      have hp2 : (∃ q ∈ rest, q.presentSupport = true) ∨
          (updatePresent (updateGraphics indices i qf) i qf).presentFamily.isSome = true := by
        rw [updateStep_present]
        rcases hpx with ⟨q, hq, hql⟩ | h
        · rcases List.mem_cons.mp hq with rfl | hq'
          · right
            rw [if_pos hql]
            rfl
          · left
            exact ⟨q, hq', hql⟩
        · by_cases hb : qf.presentSupport = true
          · right
            rw [if_pos hb]
            rfl
          · right
            rw [if_neg (by simpa using hb)]
            exact h
      rw [findQueueFamiliesLoop_cons]
      by_cases hc : (updatePresent (updateGraphics indices i qf) i qf).isComplete = true
      · rw [if_pos hc]
        exact hc
      · rw [if_neg hc]
        exact ih _ (i + 1) hg2 hp2

theorem findQueueFamiliesLoop_append :
    ∀ (rest extra : List QueueFamily) (indices : QueueFamilyIndices) (i : Nat),
      indices.isComplete = false →
      (findQueueFamiliesLoop indices i rest).isComplete = true →
      findQueueFamiliesLoop indices i (rest ++ extra) =
        findQueueFamiliesLoop indices i rest := by
  intro rest
  induction rest with
  | nil =>
      intro extra indices i hnc hcomp
      exact absurd (by rw [findQueueFamiliesLoop] at hcomp; exact hcomp)
        (by simp [hnc])
  | cons qf rest ih =>
      intro extra indices i hnc hcomp
      rw [List.cons_append, findQueueFamiliesLoop_cons, findQueueFamiliesLoop_cons]
      rw [findQueueFamiliesLoop_cons] at hcomp
      by_cases hc : (updatePresent (updateGraphics indices i qf) i qf).isComplete = true
      · rw [if_pos hc]
        rw [if_pos hc]
      · rw [if_neg hc]
        rw [if_neg hc]
        rw [if_neg hc] at hcomp
        exact ih extra _ (i + 1) (by rw [← Bool.not_eq_true]; exact hc) hcomp

/-- Counterexample for C1: with families
`[graphics-only, graphics-only, present-only]`, family `0` advertises
graphics-capable submission, yet `findQueueFamilies` returns graphics
index `1` (the later graphics family scanned before the stop overwrote
the earlier one), so the graphics index returned is not the smallest
qualifying index. -/
theorem findQueueFamilies_counterexample :
    Nat.land (QueueFamily.queueFlags ⟨1, false⟩) VK_QUEUE_GRAPHICS_BIT ≠ 0 ∧
    findQueueFamilies [⟨1, false⟩, ⟨1, false⟩, ⟨0, true⟩] = ⟨some 1, some 2⟩ ∧
    (findQueueFamilies [⟨1, false⟩, ⟨1, false⟩, ⟨0, true⟩]).graphicsFamily ≠
      some 0 := by
  refine ⟨by decide, by decide, by decide⟩

/-- C1 as amended: families are scanned in ascending driver-reported
order and iteration stops as soon as both roles are assigned (families
listed past that point cannot change the result); each returned role
index is the index of a family qualifying for that role, and both roles
are assigned exactly when the list contains at least one
graphics-capable family and at least one present-capable family — but
the index kept for a role is the most recently scanned qualifying
family, not the first, so it need not be the lowest qualifying index. -/
theorem findQueueFamilies_amended (queueFamilies extra : List QueueFamily) :
    (∀ g, (findQueueFamilies queueFamilies).graphicsFamily = some g →
      ∃ hg : g < queueFamilies.length,
        Nat.land (queueFamilies.get ⟨g, hg⟩).queueFlags VK_QUEUE_GRAPHICS_BIT ≠ 0) ∧
    (∀ p, (findQueueFamilies queueFamilies).presentFamily = some p →
      ∃ hp : p < queueFamilies.length,
        (queueFamilies.get ⟨p, hp⟩).presentSupport = true) ∧
    ((findQueueFamilies queueFamilies).isComplete = true ↔
      (∃ qf ∈ queueFamilies, Nat.land qf.queueFlags VK_QUEUE_GRAPHICS_BIT ≠ 0) ∧
      (∃ qf ∈ queueFamilies, qf.presentSupport = true)) ∧
    ((findQueueFamilies queueFamilies).isComplete = true →
      findQueueFamilies (queueFamilies ++ extra) = findQueueFamilies queueFamilies) := by
  have hsound := findQueueFamiliesLoop_sound
    (fun g => ∃ hg : g < queueFamilies.length,
      Nat.land (queueFamilies.get ⟨g, hg⟩).queueFlags VK_QUEUE_GRAPHICS_BIT ≠ 0)
    (fun p => ∃ hp : p < queueFamilies.length,
      (queueFamilies.get ⟨p, hp⟩).presentSupport = true)
    queueFamilies ⟨none, none⟩ 0
    (fun g h => Option.noConfusion h) (fun p h => Option.noConfusion h)
    (fun j hj hb => by
      simp only [Nat.zero_add]
      exact ⟨hj, hb⟩)
    (fun j hj hb => by
      simp only [Nat.zero_add]
      exact ⟨hj, hb⟩)
  refine ⟨hsound.1, hsound.2, ?_, ?_⟩
  · constructor
    · intro hcomp
      have hgp : (findQueueFamilies queueFamilies).graphicsFamily.isSome = true ∧
          (findQueueFamilies queueFamilies).presentFamily.isSome = true := by
        have := hcomp
        unfold QueueFamilyIndices.isComplete at this
        exact Bool.and_eq_true_iff.mp this
      obtain ⟨g, hgg⟩ := Option.isSome_iff_exists.mp hgp.1
      obtain ⟨p, hpp⟩ := Option.isSome_iff_exists.mp hgp.2
      obtain ⟨hglt, hgb⟩ := hsound.1 g hgg
      obtain ⟨hplt, hpb⟩ := hsound.2 p hpp
      exact ⟨⟨queueFamilies.get ⟨g, hglt⟩, List.get_mem queueFamilies g hglt, hgb⟩,
        ⟨queueFamilies.get ⟨p, hplt⟩, List.get_mem queueFamilies p hplt, hpb⟩⟩
    · intro hex
      exact findQueueFamiliesLoop_completes queueFamilies ⟨none, none⟩ 0
        (Or.inl hex.1) (Or.inl hex.2)
  · intro hcomp
    exact findQueueFamiliesLoop_append queueFamilies extra ⟨none, none⟩ 0 rfl hcomp

/-- Witness for C1 (amended): the result on
`[graphics-only, graphics-only, present-only]` is complete, and
appending a further family leaves it unchanged (the scan stopped). -/
theorem findQueueFamilies_amended_witness :
    findQueueFamilies [⟨1, false⟩, ⟨1, false⟩, ⟨0, true⟩, ⟨1, true⟩] =
      findQueueFamilies [⟨1, false⟩, ⟨1, false⟩, ⟨0, true⟩] :=
  (findQueueFamilies_amended [⟨1, false⟩, ⟨1, false⟩, ⟨0, true⟩]
    [⟨1, true⟩]).2.2.2 (by decide)

end VulkanTutorial
